import Mathlib

/-!
# Verification of Falcor's render-graph `ResourceCache`

The repository ships the interface of `ResourceCache`
(`Framework/Source/Graphics/RenderGraph/ResourceCache.h`): a registry that
maps field names (`"Pass.Field"`) to resource slots, resolves aliasing
between fields that share one physical resource, merges per-field
reflection descriptors, allocates one concrete resource per slot, and
tracks externally owned resources.  The member-function bodies are not part
of the shipped sources, so the operations below are modelled from the
specification's description of each member, over the data members declared
in the header (`mFieldMap : unordered_map<string, uint32_t>`,
`mResourceData : vector<ResourceData>`,
`mExternalResources : unordered_map<string, shared_ptr<Resource>>`).

Hash maps are modelled as association lists (first binding wins on lookup),
`shared_ptr<Resource>` as `Option Resource` where `Resource` carries a
numeric identity (`id`) so that "same handle" is distinguishable from
"equal descriptor", and `uint32_t` slot indices as `Nat` (the vector can
never reach `2^32` entries in any scenario considered here).
-/

namespace Falcor

/-- Pixel formats.  Only the constructors the claims exercise are named;
`other n` stands for the remaining members of the C++ enum.
`Unknown` is the default, meaning "unspecified". -/
inductive ResourceFormat where
  | Unknown : ResourceFormat
  | RGBA8 : ResourceFormat
  | D32Float : ResourceFormat
  | other : Nat → ResourceFormat
deriving DecidableEq, Repr

namespace RenderPassReflection

/-- Reflection data for one declared field (`RenderPassReflection::Field`):
dimensions (0 = unspecified), format (`Unknown` = unspecified) and a
depth-usage flag that selects which of the two fallback formats of
`DefaultProperties` applies. -/
structure Field where
  width : Nat
  height : Nat
  format : ResourceFormat
  isDepth : Bool
deriving DecidableEq, Repr

end RenderPassReflection

/-- A concrete allocated resource.  `id` models pointer identity of the
`shared_ptr<Resource>` handle: two resources created by distinct
allocations have distinct `id`s even when their descriptors agree. -/
structure Resource where
  id : Nat
  width : Nat
  height : Nat
  format : ResourceFormat
deriving DecidableEq, Repr

/-- `ResourceCache::DefaultProperties` from the header: fallback extent and
fallback color/depth formats used for attributes the registering passes
left unspecified. -/
structure DefaultProperties where
  width : Nat := 0
  height : Nat := 0
  colorFormat : ResourceFormat := ResourceFormat.Unknown
  depthFormat : ResourceFormat := ResourceFormat.Unknown
deriving DecidableEq, Repr

/-- `ResourceCache::ResourceData` from the header: one resource slot,
holding the merged reflection descriptor and the optional concrete
resource (present only after allocation). -/
structure ResourceData where
  field : RenderPassReflection.Field
  pResource : Option Resource
deriving DecidableEq, Repr

/-- Lookup in an association list modelling `unordered_map`: the first
binding of the key wins. -/
def lookupStr {α : Type} : List (String × α) → String → Option α
  | [], _ => none
  | (k, v) :: rest, key => if k = key then some v else lookupStr rest key

/-- The cache state: the three data members declared in the header plus a
counter supplying fresh resource identities (modelling the allocator
returning a new object each time). -/
structure ResourceCache where
  mFieldMap : List (String × Nat)
  mResourceData : List ResourceData
  mExternalResources : List (String × Resource)
  nextResId : Nat
deriving DecidableEq, Repr

namespace ResourceCache

/-- `ResourceCache::create()`: a freshly created, empty cache. -/
def create : ResourceCache :=
  { mFieldMap := [], mResourceData := [], mExternalResources := [], nextResId := 0 }

/-- Modelled from the spec: `registerExternalResource` (body absent from
the shipped sources) records a caller-owned resource under `name`,
overwriting any prior entry for the same name. -/
def registerExternalResource (c : ResourceCache) (name : String) (r : Resource) :
    ResourceCache :=
  { c with mExternalResources := (name, r) :: c.mExternalResources }

/-- Modelled from the spec: `removeExternalResource` (body absent from the
shipped sources) erases the name from the external table; no-op if
absent. -/
def removeExternalResource (c : ResourceCache) (name : String) : ResourceCache :=
  { c with mExternalResources := c.mExternalResources.filter (fun p => p.1 != name) }

/-- Modelled from the spec: `getExternalResource` (body absent from the
shipped sources) is a pure lookup returning an empty handle when the name
is absent. -/
def getExternalResource (c : ResourceCache) (name : String) : Option Resource :=
  lookupStr c.mExternalResources name

/-- Merge one scalar attribute: an unset side (`0`) yields the other side,
equal set values agree, distinct set values are a configuration error. -/
def mergeNat (a b : Nat) : Except String Nat :=
  if a = 0 then Except.ok b
  else if b = 0 then Except.ok a
  else if a = b then Except.ok a
  else Except.error "conflicting field dimensions"

/-- Merge the format attribute: `Unknown` is the unset value. -/
def mergeFormat (a b : ResourceFormat) : Except String ResourceFormat :=
  if a = ResourceFormat.Unknown then Except.ok b
  else if b = ResourceFormat.Unknown then Except.ok a
  else if a = b then Except.ok a
  else Except.error "conflicting field formats"

/-- Modelled from the spec: the descriptor merge rule used by
`registerField` (body absent from the shipped sources).  For each
attribute a previously unset/default value is replaced by the new field's
value; two set, conflicting values are a configuration error.  The
depth-usage flag is a usage flag and is combined by union. -/
def mergeField (oldF newF : RenderPassReflection.Field) :
    Except String RenderPassReflection.Field :=
  match mergeNat oldF.width newF.width, mergeNat oldF.height newF.height,
        mergeFormat oldF.format newF.format with
  | Except.ok w, Except.ok h, Except.ok fmt =>
    Except.ok { width := w, height := h, format := fmt,
                isDepth := oldF.isDepth || newF.isDepth }
  | Except.error e, _, _ => Except.error e
  | _, Except.error e, _ => Except.error e
  | _, _, Except.error e => Except.error e

/-- Modelled from the spec: `registerField` (body absent from the shipped
sources).  The four cases of the spec:
* `alias` given and already registered: merge `field` into the alias's
  slot, then map `name` to that slot;
* `alias` given but not registered: create a slot from `field` and map
  both `name` and `alias` to it;
* no alias, `name` already registered: merge `field` into the existing
  slot in place;
* no alias, `name` new: create a fresh slot seeded from `field`.
Configuration errors from the merge rule are surfaced to the caller. -/
def registerField (c : ResourceCache) (name : String)
    (field : RenderPassReflection.Field) (aliasName : String := "") :
    Except String ResourceCache :=
  if aliasName ≠ "" then
    match lookupStr c.mFieldMap aliasName with
    | some i =>
      match c.mResourceData[i]? with
      | some rd =>
        match mergeField rd.field field with
        | Except.ok merged =>
          Except.ok { c with
            mResourceData := c.mResourceData.set i
              { field := merged, pResource := rd.pResource },
            mFieldMap := (name, i) :: c.mFieldMap }
        | Except.error e => Except.error e
      | none => Except.error "corrupt field map"
    | none =>
      Except.ok { c with
        mResourceData := c.mResourceData ++ [{ field := field, pResource := none }],
        mFieldMap := (name, c.mResourceData.length)
          :: (aliasName, c.mResourceData.length) :: c.mFieldMap }
  else
    match lookupStr c.mFieldMap name with
    | some i =>
      match c.mResourceData[i]? with
      | some rd =>
        match mergeField rd.field field with
        | Except.ok merged =>
          Except.ok { c with
            mResourceData := c.mResourceData.set i
              { field := merged, pResource := rd.pResource } }
        | Except.error e => Except.error e
      | none => Except.error "corrupt field map"
    | none =>
      Except.ok { c with
        mResourceData := c.mResourceData ++ [{ field := field, pResource := none }],
        mFieldMap := (name, c.mResourceData.length) :: c.mFieldMap }

/-- Modelled from the spec: `getResource` (body absent from the shipped
sources) resolves `name` through the field-to-slot map to the slot's
current resource handle; empty when the name is unknown or the slot is not
yet allocated. -/
def getResource (c : ResourceCache) (name : String) : Option Resource :=
  match lookupStr c.mFieldMap name with
  | none => none
  | some i =>
    match c.mResourceData[i]? with
    | none => none
    | some rd => rd.pResource

/-- Modelled from the spec: `createTextureForPass` (body absent from the
shipped sources) finalizes a slot descriptor by filling still-unset
dimension/format attributes from the default properties (the depth
fallback format for depth-usage fields, the color fallback otherwise) and
returns the created resource; provider-side allocation failure is not
modelled.  `freshId` is the identity of the new handle. -/
def createTextureForPass (params : DefaultProperties)
    (field : RenderPassReflection.Field) (freshId : Nat) : Resource :=
  { id := freshId,
    width := if field.width = 0 then params.width else field.width,
    height := if field.height = 0 then params.height else field.height,
    format := if field.format = ResourceFormat.Unknown then
        (if field.isDepth then params.depthFormat else params.colorFormat)
      else field.format }

/-- One pass over the slot list: slots lacking a resource receive a fresh
one, slots already holding a resource are kept untouched.  Returns the new
list together with the next unused resource identity. -/
def allocList (params : DefaultProperties) :
    List ResourceData → Nat → List ResourceData × Nat
  | [], n => ([], n)
  | rd :: rest, n =>
    match rd.pResource with
    | some _ =>
      let r := allocList params rest n
      (rd :: r.1, r.2)
    | none =>
      let r := allocList params rest (n + 1)
      ({ field := rd.field,
         pResource := some (createTextureForPass params rd.field n) } :: r.1, r.2)

/-- Modelled from the spec: `allocateResources` (body absent from the
shipped sources) iterates all distinct slots; each slot lacking a resource
gets one created from its merged descriptor completed by the default
properties, slots that already hold a resource are skipped. -/
def allocateResources (c : ResourceCache) (params : DefaultProperties) :
    ResourceCache :=
  let r := allocList params c.mResourceData c.nextResId
  { c with mResourceData := r.1, nextResId := r.2 }

/-- Modelled from the spec: `reset` (body absent from the shipped sources)
drops all slots, the field-to-slot map and the external resource table,
returning the cache to its just-created state. -/
def reset (_c : ResourceCache) : ResourceCache := create

/-- A sequence of alias-free `registerField` calls, stopping at the first
configuration error (graph-compile failure). -/
def registerAll : List (String × RenderPassReflection.Field) → ResourceCache →
    Except String ResourceCache
  | [], c => Except.ok c
  | (n, f) :: rest, c =>
    match c.registerField n f with
    | Except.ok c' => registerAll rest c'
    | Except.error e => Except.error e

/-- The structural invariant of the cache: every slot index stored in the
field-to-slot map is a valid index into the slot table. -/
def WFcache (c : ResourceCache) : Prop :=
  ∀ p ∈ c.mFieldMap, p.2 < c.mResourceData.length

end ResourceCache

/-! ## Basic lemmas about the model -/

open ResourceCache RenderPassReflection

lemma lookupStr_eq_none_iff {α : Type} (l : List (String × α)) (k : String) :
    lookupStr l k = none ↔ k ∉ l.map Prod.fst := by
  induction l with
  | nil => simp [lookupStr]
  | cons p rest ih =>
    obtain ⟨k', v⟩ := p
    by_cases h : k' = k
    · subst h; simp [lookupStr]
    · simp only [lookupStr, if_neg h, ih, List.map_cons, List.mem_cons]
      have : ¬ k = k' := fun hk => h hk.symm
      tauto

lemma allocList_length (params : DefaultProperties) (l : List ResourceData) (n : Nat) :
    (allocList params l n).1.length = l.length := by
  induction l generalizing n with
  | nil => rfl
  | cons rd rest ih =>
    cases h : rd.pResource <;> simp [allocList, h, ih]

lemma allocList_get?_of_isSome (params : DefaultProperties) (l : List ResourceData)
    (n i : Nat) (rd : ResourceData) (hg : l[i]? = some rd)
    (hs : rd.pResource.isSome) : (allocList params l n).1[i]? = some rd := by
  induction l generalizing n i with
  | nil => simp at hg
  | cons rd0 rest ih =>
    cases i with
    | zero =>
      have heq : rd0 = rd := by simpa using hg
      rw [← heq] at hs ⊢
      cases h : rd0.pResource with
      | none => rw [h] at hs; simp at hs
      | some r => simp [allocList, h]
    | succ j =>
      simp only [List.getElem?_cons_succ] at hg
      cases h : rd0.pResource with
      | none => simpa [allocList, h] using ih (n + 1) j hg
      | some r => simpa [allocList, h] using ih n j hg

lemma allocList_get?_of_none (params : DefaultProperties) (l : List ResourceData)
    (n i : Nat) (rd : ResourceData) (hg : l[i]? = some rd)
    (hs : rd.pResource = none) :
    ∃ res : Resource, (allocList params l n).1[i]? =
      some { field := rd.field, pResource := some res } := by
  induction l generalizing n i with
  | nil => simp at hg
  | cons rd0 rest ih =>
    cases i with
    | zero =>
      have heq : rd0 = rd := by simpa using hg
      rw [← heq] at hs ⊢
      exact ⟨createTextureForPass params rd0.field n, by simp [allocList, hs]⟩
    | succ j =>
      simp only [List.getElem?_cons_succ] at hg
      cases h : rd0.pResource with
      | none =>
        obtain ⟨res, hres⟩ := ih (n + 1) j hg
        exact ⟨res, by simp [allocList, h, hres]⟩
      | some r =>
        obtain ⟨res, hres⟩ := ih n j hg
        exact ⟨res, by simp [allocList, h, hres]⟩

lemma allocList_all_isSome (params : DefaultProperties) (l : List ResourceData)
    (n : Nat) : ∀ rd ∈ (allocList params l n).1, rd.pResource.isSome := by
  induction l generalizing n with
  | nil => simp [allocList]
  | cons rd0 rest ih =>
    cases h : rd0.pResource with
    | none =>
      simp only [allocList, h]
      intro rd hrd
      rcases List.mem_cons.mp hrd with hrd | hrd
      · subst hrd; rfl
      · exact ih (n + 1) rd hrd
    | some r =>
      simp only [allocList, h]
      intro rd hrd
      rcases List.mem_cons.mp hrd with hrd | hrd
      · subst hrd; rw [h]; rfl
      · exact ih n rd hrd

lemma allocList_of_all_isSome (params : DefaultProperties) (l : List ResourceData)
    (n : Nat) (h : ∀ rd ∈ l, rd.pResource.isSome) : allocList params l n = (l, n) := by
  induction l generalizing n with
  | nil => rfl
  | cons rd0 rest ih =>
    have h0 : rd0.pResource.isSome := h rd0 (List.mem_cons_self _ _)
    cases hp : rd0.pResource with
    | none => rw [hp] at h0; simp at h0
    | some r =>
      have := ih n (fun rd hrd => h rd (List.mem_cons_of_mem _ hrd))
      simp [allocList, hp, this]

lemma mergeNat_zero_left (b : Nat) : mergeNat 0 b = Except.ok b := by
  simp [mergeNat]

lemma mergeNat_zero_right (a : Nat) : mergeNat a 0 = Except.ok a := by
  by_cases h : a = 0 <;> simp [mergeNat, h]

lemma mergeNat_conflict (a b : Nat) (ha : a ≠ 0) (hb : b ≠ 0) (hne : a ≠ b) :
    mergeNat a b = Except.error "conflicting field dimensions" := by
  simp [mergeNat, ha, hb, hne]

lemma mergeFormat_unknown_left (b : ResourceFormat) :
    mergeFormat ResourceFormat.Unknown b = Except.ok b := by
  simp [mergeFormat]

lemma mergeFormat_conflict (a b : ResourceFormat) (ha : a ≠ ResourceFormat.Unknown)
    (hb : b ≠ ResourceFormat.Unknown) (hne : a ≠ b) :
    mergeFormat a b = Except.error "conflicting field formats" := by
  simp [mergeFormat, ha, hb, hne]

lemma mergeField_ok_parts (oldF newF m : Field)
    (h : mergeField oldF newF = Except.ok m) :
    mergeNat oldF.width newF.width = Except.ok m.width ∧
    mergeNat oldF.height newF.height = Except.ok m.height ∧
    mergeFormat oldF.format newF.format = Except.ok m.format := by
  cases hw : mergeNat oldF.width newF.width with
  | error e => simp [mergeField, hw] at h
  | ok w =>
    cases hh : mergeNat oldF.height newF.height with
    | error e => simp [mergeField, hw, hh] at h
    | ok ht =>
      cases hf : mergeFormat oldF.format newF.format with
      | error e => simp [mergeField, hw, hh, hf] at h
      | ok fmt =>
        simp [mergeField, hw, hh, hf] at h
        subst h
        refine ⟨?_, ?_, ?_⟩ <;> simp [hw, hh, hf]

lemma mergeField_error_of_width (oldF newF : Field) (e : String)
    (h : mergeNat oldF.width newF.width = Except.error e) :
    mergeField oldF newF = Except.error e := by
  cases hh : mergeNat oldF.height newF.height <;>
    cases hf : mergeFormat oldF.format newF.format <;>
      simp [mergeField, h, hh, hf]

lemma mergeField_error_of_height (oldF newF : Field) (e : String)
    (h : mergeNat oldF.height newF.height = Except.error e) :
    ∃ e', mergeField oldF newF = Except.error e' := by
  cases hw : mergeNat oldF.width newF.width with
  | error e1 => exact ⟨e1, mergeField_error_of_width _ _ _ hw⟩
  | ok w =>
    refine ⟨e, ?_⟩
    cases hf : mergeFormat oldF.format newF.format <;>
      simp [mergeField, h, hw, hf]

lemma mergeField_error_of_format (oldF newF : Field) (e : String)
    (h : mergeFormat oldF.format newF.format = Except.error e) :
    ∃ e', mergeField oldF newF = Except.error e' := by
  cases hw : mergeNat oldF.width newF.width with
  | error e1 => exact ⟨e1, mergeField_error_of_width _ _ _ hw⟩
  | ok w =>
    cases hh : mergeNat oldF.height newF.height with
    | error e2 => exact ⟨e2, by simp [mergeField, hw, hh]⟩
    | ok ht => exact ⟨e, by simp [mergeField, hw, hh, h]⟩

lemma registerField_no_alias_ok (c : ResourceCache) (n : String) (f : Field)
    (c' : ResourceCache) (h : c.registerField n f = Except.ok c') :
    (∃ i rd m, lookupStr c.mFieldMap n = some i ∧ c.mResourceData[i]? = some rd ∧
      mergeField rd.field f = Except.ok m ∧
      c' = { c with mResourceData := c.mResourceData.set i ⟨m, rd.pResource⟩ }) ∨
    (lookupStr c.mFieldMap n = none ∧
      c' = { c with
        mResourceData := c.mResourceData ++ [⟨f, none⟩],
        mFieldMap := (n, c.mResourceData.length) :: c.mFieldMap }) := by
  cases hl : lookupStr c.mFieldMap n with
  | some i =>
    cases hd : c.mResourceData[i]? with
    | none => simp [registerField, hl, hd] at h
    | some rd =>
      cases hm : mergeField rd.field f with
      | error e => simp [registerField, hl, hd, hm] at h
      | ok m =>
        simp [registerField, hl, hd, hm] at h
        exact Or.inl ⟨i, rd, m, rfl, hd, hm, h.symm⟩
  | none =>
    simp [registerField, hl] at h
    exact Or.inr ⟨rfl, h.symm⟩

lemma registerField_alias_ok (c : ResourceCache) (n an : String) (f : Field)
    (c' : ResourceCache) (han : an ≠ "")
    (h : c.registerField n f an = Except.ok c') :
    (∃ i rd m, lookupStr c.mFieldMap an = some i ∧ c.mResourceData[i]? = some rd ∧
      mergeField rd.field f = Except.ok m ∧
      c' = { c with
        mResourceData := c.mResourceData.set i ⟨m, rd.pResource⟩,
        mFieldMap := (n, i) :: c.mFieldMap }) ∨
    (lookupStr c.mFieldMap an = none ∧
      c' = { c with
        mResourceData := c.mResourceData ++ [⟨f, none⟩],
        mFieldMap := (n, c.mResourceData.length)
          :: (an, c.mResourceData.length) :: c.mFieldMap }) := by
  cases hl : lookupStr c.mFieldMap an with
  | some i =>
    cases hd : c.mResourceData[i]? with
    | none => simp [registerField, han, hl, hd] at h
    | some rd =>
      cases hm : mergeField rd.field f with
      | error e => simp [registerField, han, hl, hd, hm] at h
      | ok m =>
        simp [registerField, han, hl, hd, hm] at h
        exact Or.inl ⟨i, rd, m, rfl, hd, hm, h.symm⟩
  | none =>
    simp [registerField, han, hl] at h
    exact Or.inr ⟨rfl, h.symm⟩

lemma lookupStr_isSome_of_mem_keys {α : Type} (l : List (String × α)) (k : String)
    (i : α) (h : lookupStr l k = some i) : k ∈ l.map Prod.fst := by
  by_contra hc
  rw [← lookupStr_eq_none_iff] at hc
  rw [hc] at h
  cases h

lemma card_insert_sdiff {α : Type} [DecidableEq α] (n : α) (S K : Finset α)
    (hn : n ∉ K) : (insert n S \ K).card = (S \ insert n K).card + 1 := by
  have h1 : insert n S \ K = insert n (S \ K) := by
    ext x
    simp only [Finset.mem_sdiff, Finset.mem_insert]
    constructor
    · rintro ⟨rfl | hx, hxk⟩
      · exact Or.inl rfl
      · exact Or.inr ⟨hx, hxk⟩
    · rintro (rfl | ⟨hx, hxk⟩)
      · exact ⟨Or.inl rfl, hn⟩
      · exact ⟨Or.inr hx, hxk⟩
  have h2 : S \ insert n K = (S \ K).erase n := by
    ext x
    simp only [Finset.mem_sdiff, Finset.mem_insert, Finset.mem_erase]
    tauto
  have h3 : insert n (S \ K) = insert n ((S \ K).erase n) := by
    ext x
    simp only [Finset.mem_insert, Finset.mem_erase]
    tauto
  rw [h1, h2, h3, Finset.card_insert_of_not_mem (Finset.not_mem_erase _ _)]

lemma registerAll_length (regs : List (String × Field)) :
    ∀ c0 c : ResourceCache, registerAll regs c0 = Except.ok c →
    c.mResourceData.length = c0.mResourceData.length +
      ((regs.map Prod.fst).toFinset \ (c0.mFieldMap.map Prod.fst).toFinset).card := by
  induction regs with
  | nil =>
    intro c0 c h
    simp [registerAll] at h
    subst h
    simp
  | cons nf rest ih =>
    intro c0 c h
    obtain ⟨n, f⟩ := nf
    simp only [registerAll] at h
    cases hr : c0.registerField n f with
    | error e => rw [hr] at h; cases h
    | ok c1 =>
      rw [hr] at h
      have hlen := ih c1 c h
      rcases registerField_no_alias_ok c0 n f c1 hr with
        ⟨i, rd, m, hl, hd, hm, rfl⟩ | ⟨hl, rfl⟩
      · have hn : n ∈ (c0.mFieldMap.map Prod.fst).toFinset := by
          rw [List.mem_toFinset]
          exact lookupStr_isSome_of_mem_keys _ _ _ hl
        simp only [List.length_set] at hlen
        rw [hlen, List.map_cons, List.toFinset_cons,
          Finset.insert_sdiff_of_mem _ hn]
      · have hn : n ∉ (c0.mFieldMap.map Prod.fst).toFinset := by
          rw [List.mem_toFinset]
          exact (lookupStr_eq_none_iff _ _).mp hl
        simp only [List.length_append, List.length_cons, List.length_nil,
          List.map_cons, List.toFinset_cons] at hlen ⊢
        rw [hlen, card_insert_sdiff n _ _ hn]
        omega

/-! ## Claim theorems -/

/-- C7: after `reset()` every previously registered field name and external
name returns empty on lookup, and the cache's observable state equals that
of a freshly created cache — all slots, the field-to-slot map and the
external resource table are cleared. -/
theorem reset_restores_fresh_state (c : ResourceCache) (name : String) :
    (c.reset).getResource name = none ∧
    (c.reset).getExternalResource name = none ∧
    c.reset = ResourceCache.create :=
  ⟨rfl, rfl, rfl⟩

/-- C8: after `registerExternalResource("X", r)`, `getExternalResource "X"`
returns exactly `r`, `allocateResources` never touches the external
resource table, and the lookup result is unchanged by an intervening
`allocateResources` call. -/
theorem external_resource_unaffected_by_allocation (c : ResourceCache)
    (name : String) (r : Resource) (params : DefaultProperties) :
    (c.registerExternalResource name r).getExternalResource name = some r ∧
    (∀ (c' : ResourceCache) (p : DefaultProperties),
      (c'.allocateResources p).mExternalResources = c'.mExternalResources) ∧
    ((c.registerExternalResource name r).allocateResources params).getExternalResource
      name = some r := by
  refine ⟨?_, fun c' p => rfl, ?_⟩
  · simp [registerExternalResource, getExternalResource, lookupStr]
  · simp [registerExternalResource, getExternalResource, allocateResources, lookupStr]

/-- C9: `getResource` returns empty (not a fatal error) for a name absent
from the field-to-slot map and for a registered name whose slot has not
yet been allocated; `getExternalResource` returns empty for an
unregistered external name. -/
theorem unknown_lookup_returns_empty (c : ResourceCache) (name : String) :
    (lookupStr c.mFieldMap name = none → c.getResource name = none) ∧
    (∀ (i : Nat) (rd : ResourceData), lookupStr c.mFieldMap name = some i →
      c.mResourceData[i]? = some rd → rd.pResource = none →
      c.getResource name = none) ∧
    (lookupStr c.mExternalResources name = none →
      c.getExternalResource name = none) := by
  refine ⟨fun h => by simp [getResource, h],
    fun i rd h1 h2 h3 => by simp [getResource, h1, h2, h3],
    fun h => h⟩

/-- Witness for C9: the empty cache yields empty lookups for `"A.out"`, and
a cache holding `"A.out"` registered but unallocated yields an empty
`getResource`. -/
theorem unknown_lookup_returns_empty_w :
    ResourceCache.create.getResource "A.out" = none ∧
    (ResourceCache.mk [("A.out", 0)]
      [⟨⟨0, 0, ResourceFormat.Unknown, false⟩, none⟩] [] 0).getResource
      "A.out" = none ∧
    ResourceCache.create.getExternalResource "A.out" = none :=
  ⟨(unknown_lookup_returns_empty ResourceCache.create "A.out").1 rfl,
   (unknown_lookup_returns_empty _ "A.out").2.1 0 _ (by decide) rfl rfl,
   (unknown_lookup_returns_empty ResourceCache.create "A.out").2.2 rfl⟩

/-- C6: `createTextureForPass` takes each attribute from the field when the
field specifies it and from the default properties only when unspecified
(width/height `0`, format `Unknown`); concretely, a field registered with
all attributes unspecified and allocated with defaults
`{width 1920, height 1080, colorFormat RGBA8}` yields a 1920×1080 RGBA8
resource. -/
theorem defaults_fill_only_unspecified :
    (∀ (params : DefaultProperties) (field : Field) (n : Nat),
      (field.width ≠ 0 → (createTextureForPass params field n).width = field.width) ∧
      (field.width = 0 → (createTextureForPass params field n).width = params.width) ∧
      (field.height ≠ 0 → (createTextureForPass params field n).height = field.height) ∧
      (field.height = 0 → (createTextureForPass params field n).height = params.height) ∧
      (field.format ≠ ResourceFormat.Unknown →
        (createTextureForPass params field n).format = field.format) ∧
      (field.format = ResourceFormat.Unknown → field.isDepth = false →
        (createTextureForPass params field n).format = params.colorFormat) ∧
      (field.format = ResourceFormat.Unknown → field.isDepth = true →
        (createTextureForPass params field n).format = params.depthFormat)) ∧
    ((ResourceCache.create.registerField "Blur.input"
        ⟨0, 0, ResourceFormat.Unknown, false⟩).map
      (fun c => (c.allocateResources
        ⟨1920, 1080, ResourceFormat.RGBA8, ResourceFormat.Unknown⟩).getResource
        "Blur.input") =
      Except.ok (some ⟨0, 1920, 1080, ResourceFormat.RGBA8⟩)) := by
  constructor
  · intro params field n
    refine ⟨fun h => by simp [createTextureForPass, h],
      fun h => by simp [createTextureForPass, h],
      fun h => by simp [createTextureForPass, h],
      fun h => by simp [createTextureForPass, h],
      fun h => by simp [createTextureForPass, h],
      fun h1 h2 => by simp [createTextureForPass, h1, h2],
      fun h1 h2 => by simp [createTextureForPass, h1, h2]⟩
  · rfl

/-- Witness for C6: a field with width 256 and the rest unspecified gets
its own width but the default height and color format. -/
theorem defaults_fill_only_unspecified_w :
    (createTextureForPass ⟨800, 600, ResourceFormat.RGBA8, ResourceFormat.D32Float⟩
      ⟨256, 0, ResourceFormat.Unknown, false⟩ 5).width = 256 ∧
    (createTextureForPass ⟨800, 600, ResourceFormat.RGBA8, ResourceFormat.D32Float⟩
      ⟨256, 0, ResourceFormat.Unknown, false⟩ 5).height = 600 ∧
    (createTextureForPass ⟨800, 600, ResourceFormat.RGBA8, ResourceFormat.D32Float⟩
      ⟨256, 0, ResourceFormat.Unknown, false⟩ 5).format = ResourceFormat.RGBA8 :=
  ⟨(defaults_fill_only_unspecified.1 _ _ 5).1 (by decide),
   (defaults_fill_only_unspecified.1 _ _ 5).2.2.2.1 rfl,
   (defaults_fill_only_unspecified.1 _ _ 5).2.2.2.2.2.1 rfl rfl⟩

/-- C2: the descriptor merge performed by `registerField` replaces each
previously unset attribute by the new field's value; a set-vs-set conflict
on any attribute is a configuration error, and `registerField` surfaces it
to the caller both on re-declaration of an existing name and on an alias
merge. -/
theorem merge_fills_unset_and_surfaces_conflicts :
    (∀ oldF newF m : Field, mergeField oldF newF = Except.ok m →
      (oldF.width = 0 → m.width = newF.width) ∧
      (oldF.height = 0 → m.height = newF.height) ∧
      (oldF.format = ResourceFormat.Unknown → m.format = newF.format)) ∧
    (∀ oldF newF : Field,
      ((oldF.width ≠ 0 ∧ newF.width ≠ 0 ∧ oldF.width ≠ newF.width) ∨
       (oldF.height ≠ 0 ∧ newF.height ≠ 0 ∧ oldF.height ≠ newF.height) ∨
       (oldF.format ≠ ResourceFormat.Unknown ∧ newF.format ≠ ResourceFormat.Unknown ∧
        oldF.format ≠ newF.format)) →
      ∃ e, mergeField oldF newF = Except.error e) ∧
    (∀ (c : ResourceCache) (name : String) (f : Field) (i : Nat)
        (rd : ResourceData) (e : String),
      lookupStr c.mFieldMap name = some i → c.mResourceData[i]? = some rd →
      mergeField rd.field f = Except.error e →
      c.registerField name f = Except.error e) ∧
    (∀ (c : ResourceCache) (name an : String) (f : Field) (i : Nat)
        (rd : ResourceData) (e : String), an ≠ "" →
      lookupStr c.mFieldMap an = some i → c.mResourceData[i]? = some rd →
      mergeField rd.field f = Except.error e →
      c.registerField name f an = Except.error e) := by
  refine ⟨?_, ?_, ?_, ?_⟩
  · intro oldF newF m h
    obtain ⟨hw, hh, hf⟩ := mergeField_ok_parts oldF newF m h
    refine ⟨fun h0 => ?_, fun h0 => ?_, fun h0 => ?_⟩
    · rw [h0, mergeNat_zero_left] at hw
      exact (Except.ok.inj hw).symm
    · rw [h0, mergeNat_zero_left] at hh
      exact (Except.ok.inj hh).symm
    · rw [h0, mergeFormat_unknown_left] at hf
      exact (Except.ok.inj hf).symm
  · intro oldF newF hconf
    rcases hconf with ⟨h1, h2, h3⟩ | ⟨h1, h2, h3⟩ | ⟨h1, h2, h3⟩
    · exact ⟨_, mergeField_error_of_width _ _ _ (mergeNat_conflict _ _ h1 h2 h3)⟩
    · exact mergeField_error_of_height _ _ _ (mergeNat_conflict _ _ h1 h2 h3)
    · exact mergeField_error_of_format _ _ _ (mergeFormat_conflict _ _ h1 h2 h3)
  · intro c name f i rd e h1 h2 h3
    simp [registerField, h1, h2, h3]
  · intro c name an f i rd e han h1 h2 h3
    simp [registerField, han, h1, h2, h3]

/-- Witness for C2: re-declaring `"A.out"` with width 8 against a slot
already fixed to width 4 surfaces the conflict error. -/
theorem merge_fills_unset_and_surfaces_conflicts_w :
    (ResourceCache.mk [("A.out", 0)]
      [⟨⟨4, 0, ResourceFormat.Unknown, false⟩, none⟩] [] 0).registerField "A.out"
      ⟨8, 0, ResourceFormat.Unknown, false⟩ =
      Except.error "conflicting field dimensions" :=
  merge_fills_unset_and_surfaces_conflicts.2.2.1 _ "A.out"
    ⟨8, 0, ResourceFormat.Unknown, false⟩ 0
    ⟨⟨4, 0, ResourceFormat.Unknown, false⟩, none⟩ _ rfl rfl rfl

/-- C5: `registerField` with an alias that is not yet registered creates
exactly one slot from the given field descriptor and maps both the new
name and the alias name to that slot. -/
theorem register_with_unregistered_alias (c : ResourceCache) (name an : String)
    (f : Field) (hne : an ≠ "") (hun : lookupStr c.mFieldMap an = none) :
    ∃ c', c.registerField name f an = Except.ok c' ∧
      lookupStr c'.mFieldMap name = some c.mResourceData.length ∧
      lookupStr c'.mFieldMap an = some c.mResourceData.length ∧
      c'.mResourceData.length = c.mResourceData.length + 1 ∧
      c'.mResourceData[c.mResourceData.length]? = some ⟨f, none⟩ := by
  refine ⟨{ c with
      mResourceData := c.mResourceData ++ [⟨f, none⟩],
      mFieldMap := (name, c.mResourceData.length)
        :: (an, c.mResourceData.length) :: c.mFieldMap }, ?_, ?_, ?_, ?_, ?_⟩
  · simp [registerField, hne, hun]
  · simp [lookupStr]
  · by_cases h : name = an <;> simp [lookupStr, h]
  · simp
  · exact List.getElem?_concat_length _ _

/-- Witness for C5: registering `"B.in"` with unregistered alias `"A.out"`
into the empty cache. -/
theorem register_with_unregistered_alias_w :
    ∃ c', ResourceCache.create.registerField "B.in"
        ⟨0, 0, ResourceFormat.Unknown, false⟩ "A.out" = Except.ok c' ∧
      lookupStr c'.mFieldMap "B.in" = some ResourceCache.create.mResourceData.length ∧
      lookupStr c'.mFieldMap "A.out" = some ResourceCache.create.mResourceData.length ∧
      c'.mResourceData.length = ResourceCache.create.mResourceData.length + 1 ∧
      c'.mResourceData[ResourceCache.create.mResourceData.length]? =
        some ⟨⟨0, 0, ResourceFormat.Unknown, false⟩, none⟩ :=
  register_with_unregistered_alias ResourceCache.create "B.in" "A.out"
    ⟨0, 0, ResourceFormat.Unknown, false⟩ (by decide) rfl

/-- C10: every operation keeps the invariant that each slot index stored in
the field-to-slot map is a valid index into the slot table. -/
theorem operations_keep_indices_in_bounds :
    WFcache ResourceCache.create ∧
    (∀ (c : ResourceCache) (n : String) (r : Resource), WFcache c →
      WFcache (c.registerExternalResource n r)) ∧
    (∀ (c : ResourceCache) (n : String), WFcache c →
      WFcache (c.removeExternalResource n)) ∧
    (∀ (c : ResourceCache) (n an : String) (f : Field) (c' : ResourceCache),
      WFcache c → c.registerField n f an = Except.ok c' → WFcache c') ∧
    (∀ (c : ResourceCache) (p : DefaultProperties), WFcache c →
      WFcache (c.allocateResources p)) ∧
    (∀ c : ResourceCache, WFcache c → WFcache c.reset) := by
  have hcreate : WFcache ResourceCache.create := by
    intro p hp
    simp [ResourceCache.create] at hp
  refine ⟨hcreate, fun c n r h => h, fun c n h => h, ?_, ?_, fun c _ => hcreate⟩
  · intro c n an f c' hwf hok
    by_cases han : an = ""
    · subst han
      rcases registerField_no_alias_ok c n f c' hok with
        ⟨i, rd, m, hl, hd, hm, rfl⟩ | ⟨hl, rfl⟩
      · intro p hp
        simp only [List.length_set]
        exact hwf p hp
      · intro p hp
        simp only [List.length_append, List.length_cons, List.length_nil]
        rcases List.mem_cons.mp hp with rfl | hp'
        · omega
        · have := hwf p hp'
          omega
    · rcases registerField_alias_ok c n an f c' han hok with
        ⟨i, rd, m, hl, hd, hm, rfl⟩ | ⟨hl, rfl⟩
      · intro p hp
        simp only [List.length_set]
        rcases List.mem_cons.mp hp with rfl | hp'
        · rw [List.getElem?_eq_some] at hd
          exact hd.1
        · exact hwf p hp'
      · intro p hp
        simp only [List.length_append, List.length_cons, List.length_nil]
        rcases List.mem_cons.mp hp with rfl | hp'
        · omega
        · rcases List.mem_cons.mp hp' with rfl | hp''
          · omega
          · have := hwf p hp''
            omega
  · intro c p hwf q hq
    have := hwf q hq
    simpa [allocateResources, allocList_length] using this

/-- Witness for C10: the invariant holds after registering `"A.out"` into a
fresh cache. -/
theorem operations_keep_indices_in_bounds_w :
    WFcache (ResourceCache.mk [("A.out", 0)]
      [⟨⟨0, 0, ResourceFormat.Unknown, false⟩, none⟩] [] 0) :=
  operations_keep_indices_in_bounds.2.2.2.1 ResourceCache.create "A.out" ""
    ⟨0, 0, ResourceFormat.Unknown, false⟩ _
    operations_keep_indices_in_bounds.1 rfl

/-- C1: after `registerField "A.out" f1` and
`registerField "B.in" f2 (alias "A.out")` followed by `allocateResources`,
both names resolve to the identical resource handle, and it is present. -/
theorem aliased_fields_get_same_resource (f1 f2 : Field)
    (params : DefaultProperties) (c1 c2 : ResourceCache)
    (h1 : ResourceCache.create.registerField "A.out" f1 = Except.ok c1)
    (h2 : c1.registerField "B.in" f2 "A.out" = Except.ok c2) :
    (c2.allocateResources params).getResource "A.out" =
      (c2.allocateResources params).getResource "B.in" ∧
    ((c2.allocateResources params).getResource "A.out").isSome := by
  have h1' : c1 = ResourceCache.mk [("A.out", 0)] [⟨f1, none⟩] [] 0 := by
    simp [registerField, lookupStr, ResourceCache.create] at h1
    exact h1.symm
  subst h1'
  cases hm : mergeField f1 f2 with
  | error e => simp [registerField, lookupStr, hm] at h2
  | ok m =>
    simp [registerField, lookupStr, hm] at h2
    subst h2
    simp [allocateResources, allocList, getResource, lookupStr]

/-- Witness for C1: concrete aliased registration of `"A.out"`/`"B.in"`
with fully unspecified fields. -/
theorem aliased_fields_get_same_resource_w :
    ((ResourceCache.mk [("B.in", 0), ("A.out", 0)]
        [⟨⟨0, 0, ResourceFormat.Unknown, false⟩, none⟩] [] 0).allocateResources
      ⟨16, 16, ResourceFormat.RGBA8, ResourceFormat.Unknown⟩).getResource "A.out" =
    ((ResourceCache.mk [("B.in", 0), ("A.out", 0)]
        [⟨⟨0, 0, ResourceFormat.Unknown, false⟩, none⟩] [] 0).allocateResources
      ⟨16, 16, ResourceFormat.RGBA8, ResourceFormat.Unknown⟩).getResource "B.in" ∧
    (((ResourceCache.mk [("B.in", 0), ("A.out", 0)]
        [⟨⟨0, 0, ResourceFormat.Unknown, false⟩, none⟩] [] 0).allocateResources
      ⟨16, 16, ResourceFormat.RGBA8, ResourceFormat.Unknown⟩).getResource
      "A.out").isSome :=
  aliased_fields_get_same_resource ⟨0, 0, ResourceFormat.Unknown, false⟩
    ⟨0, 0, ResourceFormat.Unknown, false⟩
    ⟨16, 16, ResourceFormat.RGBA8, ResourceFormat.Unknown⟩
    (ResourceCache.mk [("A.out", 0)]
      [⟨⟨0, 0, ResourceFormat.Unknown, false⟩, none⟩] [] 0)
    (ResourceCache.mk [("B.in", 0), ("A.out", 0)]
      [⟨⟨0, 0, ResourceFormat.Unknown, false⟩, none⟩] [] 0) rfl rfl

/-- C3: a second `allocateResources` without reset is the identity on an
already fully allocated cache; in general every already-allocated slot
keeps its exact resource handle and every still-unallocated slot receives
exactly one new resource. -/
theorem allocate_preserves_allocated_slots :
    (∀ (c : ResourceCache) (p p' : DefaultProperties),
      (c.allocateResources p).allocateResources p' = c.allocateResources p) ∧
    (∀ (c : ResourceCache) (p : DefaultProperties) (i : Nat) (rd : ResourceData),
      c.mResourceData[i]? = some rd → rd.pResource.isSome →
      (c.allocateResources p).mResourceData[i]? = some rd) ∧
    (∀ (c : ResourceCache) (p : DefaultProperties) (i : Nat) (rd : ResourceData),
      c.mResourceData[i]? = some rd → rd.pResource = none →
      ∃ res, (c.allocateResources p).mResourceData[i]? =
        some ⟨rd.field, some res⟩) := by
  refine ⟨?_, ?_, ?_⟩
  · intro c p p'
    have hall := allocList_all_isSome p c.mResourceData c.nextResId
    have heq := allocList_of_all_isSome p'
      (allocList p c.mResourceData c.nextResId).1
      (allocList p c.mResourceData c.nextResId).2 hall
    simp [allocateResources, heq]
  · intro c p i rd hg hs
    simpa [allocateResources] using
      allocList_get?_of_isSome p c.mResourceData c.nextResId i rd hg hs
  · intro c p i rd hg hs
    simpa [allocateResources] using
      allocList_get?_of_none p c.mResourceData c.nextResId i rd hg hs

/-- Witness for C3: in a cache with slot 0 allocated and slot 1 not,
allocation keeps slot 0's handle and fills slot 1. -/
theorem allocate_preserves_allocated_slots_w :
    ((ResourceCache.mk []
        [⟨⟨1, 1, ResourceFormat.RGBA8, false⟩, some ⟨7, 1, 1, ResourceFormat.RGBA8⟩⟩,
         ⟨⟨2, 2, ResourceFormat.RGBA8, false⟩, none⟩] [] 8).allocateResources
      ⟨64, 64, ResourceFormat.RGBA8, ResourceFormat.Unknown⟩).mResourceData[0]? =
      some ⟨⟨1, 1, ResourceFormat.RGBA8, false⟩,
        some ⟨7, 1, 1, ResourceFormat.RGBA8⟩⟩ ∧
    (∃ res, ((ResourceCache.mk []
        [⟨⟨1, 1, ResourceFormat.RGBA8, false⟩, some ⟨7, 1, 1, ResourceFormat.RGBA8⟩⟩,
         ⟨⟨2, 2, ResourceFormat.RGBA8, false⟩, none⟩] [] 8).allocateResources
      ⟨64, 64, ResourceFormat.RGBA8, ResourceFormat.Unknown⟩).mResourceData[1]? =
      some ⟨⟨2, 2, ResourceFormat.RGBA8, false⟩, some res⟩) :=
  ⟨allocate_preserves_allocated_slots.2.1 _ _ 0 _ rfl rfl,
   allocate_preserves_allocated_slots.2.2
    (ResourceCache.mk []
        [⟨⟨1, 1, ResourceFormat.RGBA8, false⟩, some ⟨7, 1, 1, ResourceFormat.RGBA8⟩⟩,
         ⟨⟨2, 2, ResourceFormat.RGBA8, false⟩, none⟩] [] 8)
    ⟨64, 64, ResourceFormat.RGBA8, ResourceFormat.Unknown⟩ 1
    ⟨⟨2, 2, ResourceFormat.RGBA8, false⟩, none⟩ rfl rfl⟩

/-- C4: for any sequence of alias-free `registerField` calls starting from
a fresh cache, the number of slots equals the number of distinct field
names registered. -/
theorem no_alias_slot_count (regs : List (String × Field)) (c : ResourceCache)
    (h : registerAll regs ResourceCache.create = Except.ok c) :
    c.mResourceData.length = (regs.map Prod.fst).toFinset.card := by
  have := registerAll_length regs ResourceCache.create c h
  simpa [ResourceCache.create] using this

/-- Witness for C4: registering `"A.x"`, `"B.y"`, then `"A.x"` again yields
two slots for two distinct names. -/
theorem no_alias_slot_count_w :
    (ResourceCache.mk [("B.y", 1), ("A.x", 0)]
      [⟨⟨0, 0, ResourceFormat.Unknown, false⟩, none⟩,
       ⟨⟨0, 0, ResourceFormat.Unknown, false⟩, none⟩] [] 0).mResourceData.length =
    (([("A.x", (⟨0, 0, ResourceFormat.Unknown, false⟩ : Field)),
       ("B.y", ⟨0, 0, ResourceFormat.Unknown, false⟩),
       ("A.x", ⟨0, 0, ResourceFormat.Unknown, false⟩)].map
      Prod.fst).toFinset).card :=
  no_alias_slot_count
    [("A.x", ⟨0, 0, ResourceFormat.Unknown, false⟩),
     ("B.y", ⟨0, 0, ResourceFormat.Unknown, false⟩),
     ("A.x", ⟨0, 0, ResourceFormat.Unknown, false⟩)] _ rfl

end Falcor
